import Mathlib

/-!
# Shallow embedding of the Tetrisnake simulation core

Verification development for the Tetrisnake game (`src/js/config.js`,
`src/js/Snake.js`, `src/js/Grid.js`, `src/js/Game.js`, and the newer
revision of the game controller shipped as `src/unnamed/part_005`).

Modelling conventions:
* A grid cell is an integer pair `(x, y)` (`Cell := Int × Int`); `c.1` is the
  JavaScript `x` field and `c.2` the `y` field.  Coordinates are `Int`
  because the snake spawns partially above the grid (negative `y`).
* JavaScript numbers are modelled as exact rationals (`ℚ`) where fractional
  values can occur (timestamps, `Math.random()` results, delays) and as
  `Int`/`Nat` where the source only ever produces integers.
* `Math.random()` is modelled by an explicit oracle stream `rng : ℕ → ℚ`
  together with a cursor `k : ℕ`; each call to `Math.random()` reads
  `rng k` and advances the cursor.  A genuine stream of draws satisfies
  `0 ≤ rng n < 1` for every `n`.
* The `staticBlocks` JavaScript `Map` keyed by `"x,y"` strings is modelled
  as an insertion-ordered list of cells with set semantics on insertion
  (`Map.set` on a present key replaces the value and keeps the key;
  the colour values stored in the map are irrelevant to every property
  proved here, so only the keys are kept).
* The unbounded `do … while` loop of `Grid.spawnFood` is given explicit
  fuel and returns `none` when the fuel runs out; every terminating run of
  the JavaScript loop is a run with sufficient fuel.
* `Game.gameLoop` / `Game.updateGame` drive `Game.updateSnake` through a
  time accumulator: each rendered frame first processes input
  (`Game.handleInput`) and then performs zero or more discrete movement
  steps.  `Game.tick` below models one frame that performs exactly one
  movement step; any interleaving of input processing and movement steps
  the real loop can produce is a sequence of such ticks.
-/

/-! ## config.js -/

/-- `config.GRID_WIDTH` (src/js/config.js). -/
def GRID_WIDTH : Int := 20

/-- `config.GRID_HEIGHT` (src/js/config.js). -/
def GRID_HEIGHT : Int := 30

/-- `config.SPEEDS.MOVE_DELAY` (src/js/config.js; the newer revision
`src/unnamed/part_003` sets 350 instead). -/
def MOVE_DELAY : ℚ := 300

/-- `config.SPEEDS.FAST_MOVE_DELAY` (src/js/config.js). -/
def FAST_MOVE_DELAY : ℚ := 50

/-- `config.SPEEDS.HOLD_SCALE` (src/js/config.js). -/
def HOLD_SCALE : ℚ := 500

/-- A grid cell: `(x, y)`. -/
abbrev Cell := Int × Int

/-! ## The static block field (the `staticBlocks` Map of Grid.js) -/

/-- `Map.set` restricted to keys: a present key keeps its place (only the
colour value, which we do not track, would change); an absent key is
appended, matching the Map's insertion order. -/
def setBlock (bs : List Cell) (c : Cell) : List Cell :=
  if c ∈ bs then bs else bs ++ [c]

/-- `Map.delete` on the key `c`: in a Map no key is duplicated, so deletion
is filtering the key out. -/
def deleteBlock (bs : List Cell) (c : Cell) : List Cell :=
  bs.filter (fun c' => decide (c' ≠ c))

/-! ## Snake.js -/

/-- The `Snake` class state (src/js/Snake.js constructor). -/
structure Snake where
  body : List Cell
  direction : Cell
  nextDirection : Option Cell
  activeDirectionKey : Option String
  keyHoldStart : ℚ
  lastUpdateTime : ℚ
  deriving DecidableEq

/-- `this.directionChangeDelay` (set to 16 in the constructor and never
changed). -/
def directionChangeDelay : ℚ := 16

/-- `Snake.prototype.spawn` (src/js/Snake.js, lines 23-40): a vertical snake
of random length 1..4 at the horizontal centre, extending upward from row 0;
consumes one random draw. -/
def Snake.spawn (rng : ℕ → ℚ) (k : ℕ) : Snake × ℕ :=
  let startY : Int := 0
  let startX : Int := GRID_WIDTH / 2
  let initialLen : ℕ :=
    ((rng k * ((min 4 (GRID_HEIGHT / 2) : Int) : ℚ)).floor).toNat + 1
  ({ body := (List.range initialLen).map (fun (i : ℕ) => (startX, startY - (i : Int)))
     direction := (0, 1)
     nextDirection := none
     activeDirectionKey := none
     keyHoldStart := 0
     lastUpdateTime := 0 }, k + 1)

/-- `Snake.prototype.getHead` (src/js/Snake.js): `this.body[0]`. -/
def Snake.getHead (s : Snake) : Cell := s.body.headI

/-- `Snake.prototype.move` (src/js/Snake.js, lines 55-78): apply the buffered
direction if any, unshift the new head, pop the tail unless eating, record
the time of this movement update. -/
def Snake.move (s : Snake) (now : ℚ) (eatFood : Bool) : Snake :=
  let dir := match s.nextDirection with
    | some d => d
    | none => s.direction
  let head := s.getHead
  let newHead : Cell := (head.1 + dir.1, head.2 + dir.2)
  let unshifted := newHead :: s.body
  { s with
    direction := dir
    nextDirection := none
    body := if eatFood then unshifted else unshifted.dropLast
    lastUpdateTime := now }

/-- `Snake.prototype.changeDirection` (src/js/Snake.js, lines 85-108). -/
def Snake.changeDirection (s : Snake) (now : ℚ) (newDir : Cell) : Bool × Snake :=
  if newDir.1 = -s.direction.1 ∧ newDir.2 = -s.direction.2 then
    (false, s)
  else if newDir.1 ≠ s.direction.1 ∨ newDir.2 ≠ s.direction.2 then
    if now - s.lastUpdateTime < directionChangeDelay then
      (true, { s with nextDirection := some newDir })
    else
      (true, { s with direction := newDir })
  else
    (false, s)

/-- `Snake.prototype.computeDelay` (src/js/Snake.js, lines 115-146).  The
JavaScript truthiness test `this.activeDirectionKey && this.keyHoldStart`
holds exactly when a key is recorded and the hold-start timestamp is
non-zero.  `now` stands for the `performance.now()` read inside the body. -/
def Snake.computeDelay (s : Snake) (now : ℚ) (level : Int) : ℚ :=
  let extraSegments : ℚ := (s.body.length : ℚ) - 1
  let levelSpeedReduction : ℚ := min ((level : ℚ) - 1) 9 * 20
  let lengthSpeedReduction : ℚ := extraSegments * 20
  let baseDelay : ℚ := max 60 (MOVE_DELAY - levelSpeedReduction - lengthSpeedReduction)
  match s.activeDirectionKey with
  | some _ =>
      if s.keyHoldStart ≠ 0 then
        let holdTime := now - s.keyHoldStart
        let factor := min (holdTime / HOLD_SCALE) 1
        max 40 (baseDelay - (baseDelay - FAST_MOVE_DELAY) * factor)
      else baseDelay
  | none => baseDelay

/-- `Snake.prototype.setActiveDirection` (src/js/Snake.js). -/
def Snake.setActiveDirection (s : Snake) (key : String) (timestamp : ℚ) : Snake :=
  if s.activeDirectionKey = some key then s
  else { s with activeDirectionKey := some key, keyHoldStart := timestamp }

/-- `Snake.prototype.clearActiveDirection` (src/js/Snake.js). -/
def Snake.clearActiveDirection (s : Snake) : Snake :=
  { s with activeDirectionKey := none, keyHoldStart := 0 }

/-- `Snake.prototype.isCollidingWith` (src/js/Snake.js, lines 175-189):
`body.some` over indexed segments, skipping the head (index 0) and, when
`excludeTail` is set, the last segment. -/
def Snake.isCollidingWith (s : Snake) (x y : Int) (excludeTail : Bool) : Bool :=
  s.body.enum.any fun p =>
    if p.1 = 0 then false
    else if excludeTail ∧ p.1 = s.body.length - 1 then false
    else decide (p.2.1 = x) && decide (p.2.2 = y)

/-! ## Grid.js -/

/-- The `Grid` class state (src/js/Grid.js constructor); `staticBlocks`
keeps the Map's keys in insertion order. -/
structure Grid where
  staticBlocks : List Cell
  food : Cell
  landedBlocks : ℕ
  deriving DecidableEq

/-- `Grid.prototype.isStaticBlock` (src/js/Grid.js): `Map.has` on the key. -/
def Grid.isStaticBlock (g : Grid) (x y : Int) : Bool :=
  decide (((x, y) : Cell) ∈ g.staticBlocks)

/-- The resampling loop of `Grid.prototype.spawnFood` (src/js/Grid.js, lines
39-50), with explicit fuel: draw `x = ⌊u·GRID_WIDTH⌋` and
`y = ⌊u'·(GRID_HEIGHT − 1)⌋ + 1`, repeat while the cell is a static block or
(when a snake was passed) on the snake's body.  Returns the food cell and
the advanced oracle cursor. -/
def spawnFoodAux (bs : List Cell) (os : Option Snake) (rng : ℕ → ℚ) :
    ℕ → ℕ → Option (Cell × ℕ)
  | 0, _ => none
  | fuel + 1, k =>
      let f : Cell := ((rng k * (GRID_WIDTH : ℚ)).floor,
                       (rng (k + 1) * ((GRID_HEIGHT : ℚ) - 1)).floor + 1)
      if decide (f ∈ bs) ||
          (match os with
           | some s => s.isCollidingWith f.1 f.2 false
           | none => false) then
        spawnFoodAux bs os rng fuel (k + 2)
      else
        some (f, k + 2)

/-- `Grid.prototype.spawnFood` (src/js/Grid.js): run the resampling loop and
store the found cell in `this.food`. -/
def Grid.spawnFood (g : Grid) (os : Option Snake) (rng : ℕ → ℚ) (k fuel : ℕ) :
    Option (Grid × ℕ) :=
  (spawnFoodAux g.staticBlocks os rng fuel k).map
    (fun p => ({ g with food := p.1 }, p.2))

/-- `Grid.prototype.isSnakeEatingFood` (src/js/Grid.js). -/
def Grid.isSnakeEatingFood (g : Grid) (x y : Int) : Bool :=
  decide (x = g.food.1) && decide (y = g.food.2)

/-- `Grid.prototype.isCollision` (src/js/Grid.js, lines 68-74). -/
def Grid.isCollision (g : Grid) (x y : Int) : Bool :=
  decide (x < 0) || decide (x ≥ GRID_WIDTH) ||
  decide (y < 0) || decide (y ≥ GRID_HEIGHT) ||
  g.isStaticBlock x y

/-- `Grid.prototype.lockSnake` (src/js/Grid.js, lines 80-95): insert every
body segment's coordinates into the static field and count it in
`landedBlocks`; one random draw per segment feeds the colour variance
(colours are not tracked, the cursor still advances). -/
def Grid.lockSnake (g : Grid) (s : Snake) (k : ℕ) : Grid × ℕ :=
  ({ g with
      staticBlocks := s.body.foldl setBlock g.staticBlocks
      landedBlocks := g.landedBlocks + s.body.length }, k + s.body.length)

/-- `Grid.prototype.isLineFull` (src/js/Grid.js, lines 143-148). -/
def isLineFull (bs : List Cell) (y : Int) : Bool :=
  (List.range GRID_WIDTH.toNat).all fun (x : ℕ) => decide ((((x : Int), y) : Cell) ∈ bs)

/-- `Grid.prototype.removeLine` (src/js/Grid.js, lines 154-168): delete the
keys `(x, y)` for `x = 0 .. GRID_WIDTH − 1`, then rebuild the map shifting
every remaining block with `y' < y` down one row. -/
def removeLine (bs : List Cell) (y : Int) : List Cell :=
  let afterDelete :=
    (List.range GRID_WIDTH.toNat).foldl
      (fun acc (x : ℕ) => deleteBlock acc ((x : Int), y)) bs
  afterDelete.foldl
    (fun acc c => setBlock acc (c.1, if c.2 < y then c.2 + 1 else c.2)) []

/-- The scanning loop of `Grid.prototype.clearLines` (src/js/Grid.js, lines
123-136): from `y` down to 0; on a full row, remove it and re-examine the
same `y` (the `y++` before the loop's `y--`).  Each removal deletes a full
row, so `GRID_HEIGHT + 1 + bs.length` fuel always suffices. -/
def clearLinesAux (rec : ℕ) (y : Int) (bs : List Cell) : ℕ × List Cell :=
  match rec with
  | 0 => (0, bs)
  | rec + 1 =>
      if y < 0 then (0, bs)
      else if isLineFull bs y then
        let r := clearLinesAux rec y (removeLine bs y)
        (r.1 + 1, r.2)
      else clearLinesAux rec (y - 1) bs

/-- `Grid.prototype.clearLines` (src/js/Grid.js): scan from
`GRID_HEIGHT − 1` downward; returns the number of lines cleared and the
updated grid. -/
def Grid.clearLines (g : Grid) : ℕ × Grid :=
  let r := clearLinesAux (GRID_HEIGHT.toNat + 1 + g.staticBlocks.length)
    (GRID_HEIGHT - 1) g.staticBlocks
  (r.1, { g with staticBlocks := r.2 })

/-! ## Game.js and its newer revision src/unnamed/part_005 -/

/-- The game-session state owned by the `Game` class (score, level, flags)
together with its `Snake` and `Grid` components. -/
structure Game where
  snake : Snake
  grid : Grid
  score : ℕ
  level : ℕ
  gameOver : Bool
  paused : Bool
  deriving DecidableEq

/-- `Game.prototype.handleCollision` (src/js/Game.js, lines 229-256): lock
the snake, clear lines, award `linesCleared × 50 × level`, recompute
`level = 1 + ⌊landedBlocks / 50⌋`, spawn a fresh snake, and end the game if
the fresh snake overlaps a static block. -/
def Game.handleCollision (st : Game) (rng : ℕ → ℚ) (k : ℕ) : Game × ℕ :=
  let lk := st.grid.lockSnake st.snake k
  let cl := lk.1.clearLines
  let score' := if 0 < cl.1 then st.score + cl.1 * 50 * st.level else st.score
  let level' := 1 + cl.2.landedBlocks / 50
  let sp := Snake.spawn rng lk.2
  let over := sp.1.body.any fun seg => cl.2.isStaticBlock seg.1 seg.2
  ({ st with
      snake := sp.1
      grid := cl.2
      score := score'
      level := level'
      gameOver := st.gameOver || over }, sp.2)

namespace GameB

/-- `Game.prototype.handleCollision` of the newer controller revision
(src/unnamed/part_005, lines 241-280): identical to the src/js/Game.js
version except that the level threshold is 80 blocks
(`this.level = 1 + Math.floor(this.grid.landedBlocks / 80)`); the added
screen-shake and audio calls touch no simulation state. -/
def handleCollision (st : Game) (rng : ℕ → ℚ) (k : ℕ) : Game × ℕ :=
  let lk := st.grid.lockSnake st.snake k
  let cl := lk.1.clearLines
  let score' := if 0 < cl.1 then st.score + cl.1 * 50 * st.level else st.score
  let level' := 1 + cl.2.landedBlocks / 80
  let sp := Snake.spawn rng lk.2
  let over := sp.1.body.any fun seg => cl.2.isStaticBlock seg.1 seg.2
  ({ st with
      snake := sp.1
      grid := cl.2
      score := score'
      level := level'
      gameOver := st.gameOver || over }, sp.2)

end GameB

/-- `Game.prototype.updateSnake` (src/js/Game.js, lines 190-224; identical
in src/unnamed/part_005): compute the prospective head from the *current*
direction, lock on wall/block collision or self-collision (tail excluded),
otherwise move (eating when the prospective head is the food cell) and
respawn food after eating.  `now` is the `performance.now()` read inside
`Snake.move`; `none` only when the food-respawn fuel runs out. -/
def Game.updateSnake (st : Game) (now : ℚ) (rng : ℕ → ℚ) (k fuel : ℕ) :
    Option (Game × ℕ) :=
  let head := st.snake.getHead
  let newHead : Cell := (head.1 + st.snake.direction.1, head.2 + st.snake.direction.2)
  if st.grid.isCollision newHead.1 newHead.2 then
    some (st.handleCollision rng k)
  else if st.snake.isCollidingWith newHead.1 newHead.2 true then
    some (st.handleCollision rng k)
  else
    let isEating := st.grid.isSnakeEatingFood newHead.1 newHead.2
    let s' := st.snake.move now isEating
    if isEating then
      match st.grid.spawnFood (some s') rng k fuel with
      | some p => some ({ st with
          snake := s'
          grid := p.1
          score := st.score + st.level * 10 }, p.2)
      | none => none
    else
      some ({ st with snake := s' }, k)

/-- One frame of the game loop as seen by the simulation core: the
directional part of `Game.prototype.handleInput` (a held direction feeds
`changeDirection` + `setActiveDirection`, no direction clears the hold)
followed by one discrete movement step released by the accumulator of
`Game.prototype.updateGame`.  `tIn` is the frame's `performance.now()` at
input time, `tMv` the one read by `Snake.move`.  A paused or ended game
simulates nothing. -/
structure TickIn where
  input : Option (Cell × String)
  tIn : ℚ
  tMv : ℚ

/-- One simulation frame (see `TickIn`). -/
def Game.tick (st : Game) (ti : TickIn) (rng : ℕ → ℚ) (k fuel : ℕ) :
    Option (Game × ℕ) :=
  if st.paused || st.gameOver then some (st, k)
  else
    let s1 := match ti.input with
      | some d => ((st.snake.changeDirection ti.tIn d.1).2).setActiveDirection d.2 ti.tIn
      | none => st.snake.clearActiveDirection
    Game.updateSnake { st with snake := s1 } ti.tMv rng k fuel

/-- `Game.prototype.reset` (src/js/Game.js, lines 94-105), the start of a
session: reset the grid (`Grid.prototype.reset` clears the blocks and the
landed counter and spawns food with no snake to avoid), spawn the snake,
then respawn food avoiding the fresh snake. -/
def Game.reset (rng : ℕ → ℚ) (k fuel : ℕ) : Option (Game × ℕ) :=
  match Grid.spawnFood { staticBlocks := [], food := (0, 0), landedBlocks := 0 }
      none rng k fuel with
  | none => none
  | some g1 =>
      let sp := Snake.spawn rng g1.2
      match g1.1.spawnFood (some sp.1) rng sp.2 fuel with
      | none => none
      | some g2 =>
          some ({ snake := sp.1
                  grid := g2.1
                  score := 0
                  level := 1
                  gameOver := false
                  paused := false }, g2.2)

/-- Run a list of frames from a state. -/
def Game.run (rng : ℕ → ℚ) (fuel : ℕ) : List TickIn → Game → ℕ → Option (Game × ℕ)
  | [], st, k => some (st, k)
  | ti :: rest, st, k =>
      match st.tick ti rng k fuel with
      | some p => Game.run rng fuel rest p.1 p.2
      | none => none

/-- The game states reachable from a session start through the controller's
update loop: a freshly reset session, and any state one simulation frame
away from a reachable state (for any inputs, frame times, random draws and
food-respawn fuel). -/
inductive Game.Reachable : Game → Prop where
  | init : ∀ (rng : ℕ → ℚ) (k fuel : ℕ) (st : Game) (k' : ℕ),
      Game.reset rng k fuel = some (st, k') → Game.Reachable st
  | step : ∀ (st : Game) (ti : TickIn) (rng : ℕ → ℚ) (k fuel : ℕ)
      (st' : Game) (k' : ℕ), Game.Reachable st →
      Game.tick st ti rng k fuel = some (st', k') → Game.Reachable st'

/-! ## Concrete scenarios

Random-draw streams, frame scripts and grids used by the concrete
theorems below.  A draw stream models the sequence of `Math.random()`
results; all its values lie in `[0, 1)`. -/

/-- A constant draw stream: every `Math.random()` returns 3/4. -/
def rngB : ℕ → ℚ := fun _ => mkRat 3 4

/-- 128 frames with no directional input: the snake falls straight down. -/
def trace2 : List TickIn := List.replicate 128 ⟨none, 0, 0⟩

/-- Draws steering a session in which the snake eats three times in column
10 and the fourth food respawns on the snake's own head. -/
def rngC : ℕ → ℚ := fun n =>
  List.getD [mkRat 1 2, mkRat 1 29, 0, mkRat 1 2, mkRat 1 29, mkRat 1 2, mkRat 3 29,
    mkRat 1 2, mkRat 5 29, mkRat 1 2, mkRat 5 29, 0, 0] n 0

/-- Six input-free frames: fall, eat at (10,2), (10,4) and (10,6). -/
def trace3 : List TickIn := List.replicate 6 ⟨none, 0, 0⟩

/-- The six frames of `trace3` followed by a square turn
(right, down, left, up) that eats the food sitting on the former head cell
at (10,6) just as the tail occupies that same cell. -/
def trace10 : List TickIn :=
  List.replicate 6 ⟨none, 0, 0⟩ ++
  [⟨some ((1, 0), "ArrowRight"), 650, 700⟩,
   ⟨some ((0, 1), "ArrowDown"), 750, 800⟩,
   ⟨some ((-1, 0), "ArrowLeft"), 850, 900⟩,
   ⟨some ((0, -1), "ArrowUp"), 950, 1000⟩]

/-- A full row of static blocks at height `y`. -/
def fullRow (y : Int) : List Cell := (List.range 20).map (fun (x : ℕ) => ((x : Int), y))

/-- A grid whose two bottom rows are simultaneously full, with two blocks
higher up. -/
def gDouble : Grid :=
  { staticBlocks := ((3, 5) : Cell) :: ((0, 27) : Cell) :: fullRow 28 ++ fullRow 29
    food := (0, 0)
    landedBlocks := 7 }

/-- A grid with exactly one full row, at the bottom, and two blocks above. -/
def gSingle : Grid :=
  { staticBlocks := ((3, 5) : Cell) :: fullRow 29 ++ [((7, 28) : Cell)]
    food := (0, 0)
    landedBlocks := 22 }

/-- Every cell of every row except the top row, as a static block field:
the only free cells are in row 0. -/
def blocksBelowTop : List Cell :=
  (List.range 29).flatMap (fun (j : ℕ) => (List.range 20).map (fun (x : ℕ) => ((x : Int), (j : Int) + 1)))

/-- The grid whose only free cells are the top row. -/
def gBelowTop : Grid :=
  { staticBlocks := blocksBelowTop, food := (0, 0), landedBlocks := 0 }

/-- A two-segment snake that has just turned right while falling: its body
is bent, so a rigid translation and the implemented movement differ. -/
def sBent : Snake :=
  { body := [((10, 1) : Cell), (10, 0)]
    direction := (1, 0)
    nextDirection := none
    activeDirectionKey := none
    keyHoldStart := 0
    lastUpdateTime := 100 }

/-- A one-segment snake falling straight down, as just spawned. -/
def sPlain : Snake :=
  { body := [((10, 0) : Cell)]
    direction := (0, 1)
    nextDirection := none
    activeDirectionKey := none
    keyHoldStart := 0
    lastUpdateTime := 0 }

/-- A fresh `Game` value (the component objects as constructed once per
process, before any session starts). -/
def game0 : Game :=
  { snake := { body := [], direction := (0, 1), nextDirection := none
               activeDirectionKey := none, keyHoldStart := 0, lastUpdateTime := 0 }
    grid := { staticBlocks := [], food := (0, 0), landedBlocks := 0 }
    score := 0
    level := 1
    gameOver := false
    paused := false }

/-- The session-start state of the `rngB` session: a length-4 snake about
to fall, food parked at (15, 22). -/
def st2start : Game :=
  { snake := { body := [((10 : Int), 0), (10, -1), (10, -2), (10, -3)]
               direction := (0, 1)
               nextDirection := none
               activeDirectionKey := none
               keyHoldStart := 0
               lastUpdateTime := 0 }
    grid := { staticBlocks := [], food := (15, 22), landedBlocks := 0 }
    score := 0
    level := 1
    gameOver := false
    paused := false }

/-- The `rngB` session after the 128 input-free frames of `trace2`: column
10 stacked from row 29 up to row 2, then a lock with two segments still
above the grid, leaving blocks at negative `y`. -/
def st2final : Game :=
  { snake := { body := [((10 : Int), 0), (10, -1), (10, -2), (10, -3)]
               direction := (0, 1)
               nextDirection := none
               activeDirectionKey := none
               keyHoldStart := 0
               lastUpdateTime := 0 }
    grid := { staticBlocks :=
                [((10 : Int), 29), (10, 28), (10, 27), (10, 26), (10, 25),
                 (10, 24), (10, 23), (10, 22), (10, 21), (10, 20), (10, 19),
                 (10, 18), (10, 17), (10, 16), (10, 15), (10, 14), (10, 13),
                 (10, 12), (10, 11), (10, 10), (10, 9), (10, 8), (10, 7),
                 (10, 6), (10, 5), (10, 4), (10, 3), (10, 2), (10, 1),
                 (10, 0), (10, -1), (10, -2)]
              food := (15, 22)
              landedBlocks := 32 }
    score := 0
    level := 1
    gameOver := true
    paused := false }

/-- The session-start state of the `rngC` session: a length-1 snake, food
at (10, 2). -/
def st3start : Game :=
  { snake := { body := [((10 : Int), 0)]
               direction := (0, 1)
               nextDirection := none
               activeDirectionKey := none
               keyHoldStart := 0
               lastUpdateTime := 0 }
    grid := { staticBlocks := [], food := (10, 2), landedBlocks := 0 }
    score := 0
    level := 1
    gameOver := false
    paused := false }

/-- The `rngC` session after the six frames of `trace3`: the fourth food
respawn landed on the snake's head at (10, 6). -/
def st3final : Game :=
  { snake := { body := [((10 : Int), 6), (10, 5), (10, 4), (10, 3)]
               direction := (0, 1)
               nextDirection := none
               activeDirectionKey := none
               keyHoldStart := 0
               lastUpdateTime := 0 }
    grid := { staticBlocks := [], food := (10, 6), landedBlocks := 0 }
    score := 30
    level := 1
    gameOver := false
    paused := false }

/-- The `rngC` session after the ten frames of `trace10`: eating the food
that sat on the tail cell (10, 6) duplicated that cell in the body. -/
def st10final : Game :=
  { snake := { body := [((10 : Int), 6), (10, 7), (11, 7), (11, 6), (10, 6)]
               direction := (0, -1)
               nextDirection := none
               activeDirectionKey := some "ArrowUp"
               keyHoldStart := 950
               lastUpdateTime := 1000 }
    grid := { staticBlocks := [], food := (0, 1), landedBlocks := 0 }
    score := 40
    level := 1
    gameOver := false
    paused := false }

/-- A game one block short of the older revision's 50-block level
threshold, about to lock a one-segment snake. -/
def stLevel : Game :=
  { snake := { body := [((5 : Int), 5)]
               direction := (0, 1)
               nextDirection := none
               activeDirectionKey := none
               keyHoldStart := 0
               lastUpdateTime := 0 }
    grid := { staticBlocks := [], food := (0, 0), landedBlocks := 49 }
    score := 0
    level := 1
    gameOver := false
    paused := false }

/-- An empty grid about to receive food. -/
def gEmpty : Grid := { staticBlocks := [], food := (0, 0), landedBlocks := 0 }

/-- `gEmpty` after `spawnFood` under the all-zero draw stream. -/
def gFed : Grid := { staticBlocks := [], food := (0, 1), landedBlocks := 0 }

/-- `st3start` after one input-free movement step. -/
def st3step : Game :=
  { st3start with snake := { st3start.snake with body := [((10 : Int), 1)] } }

/-! ## Lemmas and claim theorems -/

/-- Claim C5 (amended): after every lock-and-respawn transition the
locked-block counter has increased by exactly the locked snake's body
length in both controller revisions; the newer revision
(src/unnamed/part_005) recomputes the level as
`1 + ⌊totalLockedBlocks / 80⌋`, while the older src/js/Game.js revision
divides by 50 instead (see the counterexample for a diverging input). -/
theorem handleCollision_landed_and_level (st : Game) (rng : ℕ → ℚ) (k : ℕ) :
    (GameB.handleCollision st rng k).1.grid.landedBlocks
        = st.grid.landedBlocks + st.snake.body.length ∧
    (Game.handleCollision st rng k).1.grid.landedBlocks
        = st.grid.landedBlocks + st.snake.body.length ∧
    (GameB.handleCollision st rng k).1.level
        = 1 + (st.grid.landedBlocks + st.snake.body.length) / 80 ∧
    (Game.handleCollision st rng k).1.level
        = 1 + (st.grid.landedBlocks + st.snake.body.length) / 50 := by
  refine ⟨?_, ?_, ?_, ?_⟩ <;>
    simp [GameB.handleCollision, Game.handleCollision, Grid.clearLines,
      Grid.lockSnake]

/-- Claim C7: `Snake.changeDirection` returns false and changes nothing for
an exact 180° reversal and for the current direction itself; a genuinely new
direction within the 16 ms debounce window after the last movement tick is
stored as the single buffered next direction (overwriting any previous
buffer) with result true; otherwise a new direction is applied at once with
result true. -/
theorem changeDirection_spec (s : Snake) (now : ℚ) (newDir : Cell) :
    ((newDir.1 = -s.direction.1 ∧ newDir.2 = -s.direction.2) →
      s.changeDirection now newDir = (false, s)) ∧
    (newDir = s.direction → s.changeDirection now newDir = (false, s)) ∧
    (¬(newDir.1 = -s.direction.1 ∧ newDir.2 = -s.direction.2) →
      (newDir.1 ≠ s.direction.1 ∨ newDir.2 ≠ s.direction.2) →
      now - s.lastUpdateTime < 16 →
      s.changeDirection now newDir = (true, { s with nextDirection := some newDir })) ∧
    (¬(newDir.1 = -s.direction.1 ∧ newDir.2 = -s.direction.2) →
      (newDir.1 ≠ s.direction.1 ∨ newDir.2 ≠ s.direction.2) →
      ¬(now - s.lastUpdateTime < 16) →
      s.changeDirection now newDir = (true, { s with direction := newDir })) := by
  refine ⟨fun hop => ?_, fun heq => ?_, fun hop hnew hlt => ?_, fun hop hnew hge => ?_⟩
  · simp [Snake.changeDirection, hop]
  · subst heq
    by_cases hop : s.direction.1 = -s.direction.1 ∧ s.direction.2 = -s.direction.2
    · simp only [Snake.changeDirection, if_pos hop]
    · simp only [Snake.changeDirection, if_neg hop]
      simp
  · simp [Snake.changeDirection, hop, hnew, directionChangeDelay, hlt]
  · simp [Snake.changeDirection, hop, hnew, directionChangeDelay, hge]

/-- Claim C8: `Snake.computeDelay` with no held key returns
`max 60 (MOVE_DELAY − min(level−1, 9)·20 − (bodyLength−1)·20)`; with a
direction key held since `keyHoldStart` it returns
`max 40 (base − (base − FAST_MOVE_DELAY)·min(holdDuration/HOLD_SCALE, 1))`
for that base; and at level 1 with a length-1 body and no held key it
returns exactly the configured `MOVE_DELAY` constant. -/
theorem computeDelay_spec (s : Snake) (now : ℚ) (level : Int) :
    (s.activeDirectionKey = none →
      s.computeDelay now level =
        max 60 (MOVE_DELAY - min ((level : ℚ) - 1) 9 * 20
          - ((s.body.length : ℚ) - 1) * 20)) ∧
    (∀ key, s.activeDirectionKey = some key → s.keyHoldStart ≠ 0 →
      s.computeDelay now level =
        max 40
          (max 60 (MOVE_DELAY - min ((level : ℚ) - 1) 9 * 20
              - ((s.body.length : ℚ) - 1) * 20)
            - (max 60 (MOVE_DELAY - min ((level : ℚ) - 1) 9 * 20
                - ((s.body.length : ℚ) - 1) * 20) - FAST_MOVE_DELAY)
              * min ((now - s.keyHoldStart) / HOLD_SCALE) 1)) ∧
    (s.activeDirectionKey = none → s.body.length = 1 →
      s.computeDelay now 1 = MOVE_DELAY) := by
  refine ⟨fun hk => ?_, fun key hk hh => ?_, fun hk hl => ?_⟩
  · simp [Snake.computeDelay, hk]
  · simp [Snake.computeDelay, hk, hh]
  · simp [Snake.computeDelay, hk, hl, MOVE_DELAY]
    norm_num

/-- Claim C1 (amended): `Snake.move` is classic follow-the-leader movement,
not a rigid translation: the new head is the old head plus the
(possibly buffer-applied) direction vector, and every other new segment `i+1`
is the old segment `i`'s position (the old tail is dropped unless eating). -/
theorem move_follow_the_leader (s : Snake) (now : ℚ) (eat : Bool)
    (hne : s.body ≠ []) :
    (s.move now eat).body.head? =
      some (s.getHead.1 + (s.nextDirection.getD s.direction).1,
            s.getHead.2 + (s.nextDirection.getD s.direction).2) ∧
    ∀ i : ℕ, i + 1 < (s.move now eat).body.length →
      (s.move now eat).body.get? (i + 1) = s.body.get? i := by
  obtain ⟨body, dir, nd, ak, kh, lu⟩ := s
  simp only [ne_eq] at hne
  obtain ⟨c, rest, rfl⟩ := List.exists_cons_of_ne_nil hne
  have hdir : (match nd with
      | some d => d
      | none => dir) = nd.getD dir := by
    cases nd <;> rfl
  cases eat
  · refine ⟨?_, ?_⟩
    · simp [Snake.move, Snake.getHead, hdir]
    · intro i hi
      simp only [Snake.move, hdir, Bool.false_eq_true, if_false,
        List.dropLast_cons₂, List.length_cons, List.length_dropLast] at hi ⊢
      simp only [List.get?_cons_succ]
      rw [List.dropLast_eq_take, List.get?_take]
      simp only [List.length_cons] at hi ⊢
      omega
  · refine ⟨?_, ?_⟩
    · simp [Snake.move, Snake.getHead, hdir]
    · intro i hi
      simp only [Snake.move, hdir, if_true]
      simp [List.get?_cons_succ]

/-- Bounds of one sampled coordinate: for a genuine draw `0 ≤ u < 1` and a
positive integer scale `n`, `⌊u·n⌋` lies in `[0, n)`. -/
theorem floor_mul_mem_range (u : ℚ) (n : ℤ) (h0 : 0 ≤ u) (h1 : u < 1)
    (hn : 0 < n) : 0 ≤ (u * (n : ℚ)).floor ∧ (u * (n : ℚ)).floor < n := by
  constructor
  · exact Rat.le_floor.mpr (by exact_mod_cast mul_nonneg h0 (by positivity))
  · by_contra hle
    push_neg at hle
    have h2 : (n : ℚ) ≤ u * (n : ℚ) := by exact_mod_cast Rat.le_floor.mp hle
    have h3 : u * (n : ℚ) < (n : ℚ) :=
      mul_lt_of_lt_one_left (by exact_mod_cast hn) h1
    linarith

/-- The postcondition of the `spawnFood` resampling loop: a returned food
cell was drawn as `(⌊u·GRID_WIDTH⌋, ⌊u'·(GRID_HEIGHT−1)⌋ + 1)` for
consecutive draws, is not a static block, and is not on a non-head segment
of the supplied snake. -/
theorem spawnFoodAux_some_spec (bs : List Cell) (os : Option Snake)
    (rng : ℕ → ℚ) :
    ∀ (fuel k : ℕ) (f : Cell) (k' : ℕ),
      spawnFoodAux bs os rng fuel k = some (f, k') →
      (∃ j : ℕ, f = ((rng j * (GRID_WIDTH : ℚ)).floor,
          (rng (j + 1) * ((GRID_HEIGHT : ℚ) - 1)).floor + 1) ∧ k' = j + 2) ∧
      f ∉ bs ∧
      (∀ s, os = some s → s.isCollidingWith f.1 f.2 false = false) := by
  intro fuel
  induction fuel with
  | zero => intro k f k' h; simp [spawnFoodAux] at h
  | succ n ih =>
      intro k f k' h
      simp only [spawnFoodAux] at h
      split at h
      next hg => exact ih (k + 2) f k' h
      next hg =>
        simp only [Option.some.injEq, Prod.mk.injEq] at h
        obtain ⟨hf, hk⟩ := h
        simp only [Bool.or_eq_true, not_or, decide_eq_true_eq] at hg
        subst hf
        subst hk
        refine ⟨⟨k, rfl, rfl⟩, hg.1, ?_⟩
        intro s hs
        subst hs
        have h2 := hg.2
        simp only [Bool.not_eq_true] at h2
        exact h2

/-- Claim C6 (amended): every completed `Grid.spawnFood` call returns food
drawn as `x = ⌊u·GRID_WIDTH⌋ ∈ [0, GRID_WIDTH)` and
`y = ⌊u'·(GRID_HEIGHT−1)⌋ + 1 ∈ [1, GRID_HEIGHT)` — the top row `y = 0` is
excluded by construction — resampling until the cell is neither a static
block nor on a non-head segment of the supplied snake. -/
theorem spawnFood_sample_ranges (g : Grid) (os : Option Snake) (rng : ℕ → ℚ)
    (k fuel : ℕ) (g' : Grid) (k' : ℕ)
    (hr : ∀ n, 0 ≤ rng n ∧ rng n < 1)
    (h : g.spawnFood os rng k fuel = some (g', k')) :
    (0 ≤ g'.food.1 ∧ g'.food.1 < GRID_WIDTH ∧
      1 ≤ g'.food.2 ∧ g'.food.2 < GRID_HEIGHT) ∧
    g'.food ∉ g.staticBlocks ∧
    (∀ s, os = some s → s.isCollidingWith g'.food.1 g'.food.2 false = false) := by
  simp only [Grid.spawnFood, Option.map_eq_some'] at h
  obtain ⟨p, hp, hg'⟩ := h
  rw [Prod.mk.injEq] at hg'
  obtain ⟨hgg, hkk⟩ := hg'
  obtain ⟨⟨j, hj, _⟩, hmem, hcol⟩ :=
    spawnFoodAux_some_spec g.staticBlocks os rng fuel k p.1 p.2 (by
      rw [hp])
  have hfood : g'.food = p.1 := by rw [← hgg]
  have hx := floor_mul_mem_range (rng j) GRID_WIDTH (hr j).1 (hr j).2
    (by norm_num [GRID_WIDTH])
  have hy := floor_mul_mem_range (rng (j + 1)) (GRID_HEIGHT - 1)
    (hr (j + 1)).1 (hr (j + 1)).2 (by norm_num [GRID_HEIGHT])
  rw [show (((GRID_HEIGHT - 1 : Int) : ℚ)) = (GRID_HEIGHT : ℚ) - 1 by push_cast; ring]
    at hy
  refine ⟨?_, ?_, ?_⟩
  · rw [hfood, hj]
    exact ⟨hx.1, hx.2, by omega, by omega⟩
  · rw [hfood]; exact hmem
  · intro s hs; rw [hfood]; exact hcol s hs

/-- Claim C6 counterexample: the all-zero draw stream — the one that under
the claimed full-range sampling would put the food in the top row — places
it at `y = 1`, and no genuine draw stream can ever produce food with
`y = 0`. -/
theorem spawnFood_top_row_counterexample :
    spawnFoodAux [] none (fun _ => 0) 1 0 = some ((0, 1), 2) ∧
    ¬ ∃ (bs : List Cell) (os : Option Snake) (rng : ℕ → ℚ) (fuel k : ℕ)
        (f : Cell) (k' : ℕ),
        (∀ n, 0 ≤ rng n ∧ rng n < 1) ∧
        spawnFoodAux bs os rng fuel k = some (f, k') ∧ f.2 = 0 := by
  constructor
  · with_unfolding_all rfl
  · rintro ⟨bs, os, rng, fuel, k, f, k', hr, h, hy⟩
    obtain ⟨⟨j, hj, _⟩, -, -⟩ := spawnFoodAux_some_spec bs os rng fuel k f k' h
    have hb := floor_mul_mem_range (rng (j + 1)) (GRID_HEIGHT - 1)
      (hr (j + 1)).1 (hr (j + 1)).2 (by norm_num [GRID_HEIGHT])
    rw [show (((GRID_HEIGHT - 1 : Int) : ℚ)) = (GRID_HEIGHT : ℚ) - 1 by push_cast; ring]
      at hb
    rw [hj] at hy
    simp at hy
    omega

/-- Claim C3 (amended): whenever the `spawnFood` resampling loop completes,
the placed food coincides neither with a static block nor with any non-head
segment of the supplied snake (the head, index 0, is skipped by
`Snake.isCollidingWith`, so food can land on the head itself). -/
theorem spawnFood_exclusive (g : Grid) (os : Option Snake) (rng : ℕ → ℚ)
    (k fuel : ℕ) (g' : Grid) (k' : ℕ)
    (h : g.spawnFood os rng k fuel = some (g', k')) :
    g'.isStaticBlock g'.food.1 g'.food.2 = false ∧
    (∀ s, os = some s → s.isCollidingWith g'.food.1 g'.food.2 false = false) := by
  simp only [Grid.spawnFood, Option.map_eq_some'] at h
  obtain ⟨p, hp, hg'⟩ := h
  rw [Prod.mk.injEq] at hg'
  obtain ⟨hgg, hkk⟩ := hg'
  obtain ⟨-, hmem, hcol⟩ :=
    spawnFoodAux_some_spec g.staticBlocks os rng fuel k p.1 p.2 (by rw [hp])
  have hfood : g'.food = p.1 := by rw [← hgg]
  have hblocks : g'.staticBlocks = g.staticBlocks := by rw [← hgg]
  constructor
  · simp only [Grid.isStaticBlock, hblocks, hfood, decide_eq_false_iff_not]
    simpa using hmem
  · intro s hs; rw [hfood]; exact hcol s hs

/-- Every cell of the sampled range with `y ≥ 1` lies in `blocksBelowTop`. -/
theorem mem_blocksBelowTop (x y : Int) (hx0 : 0 ≤ x) (hx1 : x < 20)
    (hy0 : 1 ≤ y) (hy1 : y ≤ 29) : ((x, y) : Cell) ∈ blocksBelowTop := by
  have h1 : (y - 1).toNat < 29 := by omega
  have h2m : x.toNat ∈ List.range 20 := List.mem_range.mpr (by omega)
  have h3 : ((((x.toNat : ℕ) : Int), (((y - 1).toNat : ℕ) : Int) + 1) : Cell)
      = (x, y) := by
    rw [Prod.mk.injEq]
    refine ⟨by omega, by omega⟩
  exact List.mem_flatMap.mpr ⟨(y - 1).toNat, List.mem_range.mpr h1,
    List.mem_map.mpr ⟨x.toNat, h2m, h3⟩⟩

/-- If every cell of the sampled range `[0, GRID_WIDTH) × [1, GRID_HEIGHT)`
is a static block, the resampling loop never exits, whatever the genuine
draws and the fuel. -/
theorem spawnFoodAux_none_of_all_blocked (bs : List Cell) (os : Option Snake)
    (rng : ℕ → ℚ) (hr : ∀ n, 0 ≤ rng n ∧ rng n < 1)
    (hall : ∀ x y : Int, 0 ≤ x → x < GRID_WIDTH → 1 ≤ y → y < GRID_HEIGHT →
      ((x, y) : Cell) ∈ bs) :
    ∀ fuel k, spawnFoodAux bs os rng fuel k = none := by
  intro fuel
  induction fuel with
  | zero => intro k; rfl
  | succ n ih =>
      intro k
      have hx := floor_mul_mem_range (rng k) GRID_WIDTH (hr k).1 (hr k).2
        (by norm_num [GRID_WIDTH])
      have hy := floor_mul_mem_range (rng (k + 1)) (GRID_HEIGHT - 1)
        (hr (k + 1)).1 (hr (k + 1)).2 (by norm_num [GRID_HEIGHT])
      rw [show (((GRID_HEIGHT - 1 : Int) : ℚ)) = (GRID_HEIGHT : ℚ) - 1 by
        push_cast; ring] at hy
      have hmem : (((rng k * (GRID_WIDTH : ℚ)).floor,
          (rng (k + 1) * ((GRID_HEIGHT : ℚ) - 1)).floor + 1) : Cell) ∈ bs :=
        hall _ _ hx.1 hx.2 (by omega) (by omega)
      simp only [spawnFoodAux]
      rw [if_pos]
      · exact ih (k + 2)
      · simp [hmem]

/-- Claim C9 (amended): the `spawnFood` loop terminates, for a suitable
sequence of genuine random draws, whenever some cell of the *sampled* range
`[0, GRID_WIDTH) × [1, GRID_HEIGHT)` is neither a static block nor on a
non-head segment of the supplied snake.  A free cell in the unsampled top
row does not help (see the counterexample). -/
theorem spawnFoodAux_terminates_of_free (bs : List Cell) (os : Option Snake)
    (x y : Int) (k : ℕ)
    (hx0 : 0 ≤ x) (hx1 : x < GRID_WIDTH) (hy0 : 1 ≤ y) (hy1 : y < GRID_HEIGHT)
    (hfree : ((x, y) : Cell) ∉ bs)
    (hsnake : ∀ s, os = some s → s.isCollidingWith x y false = false) :
    ∃ rng : ℕ → ℚ, (∀ n, 0 ≤ rng n ∧ rng n < 1) ∧
      spawnFoodAux bs os rng 1 k = some ((x, y), k + 2) := by
  have hW : ((GRID_WIDTH : Int) : ℚ) = 20 := by norm_num [GRID_WIDTH]
  have hH : ((GRID_HEIGHT : Int) : ℚ) = 30 := by norm_num [GRID_HEIGHT]
  have hxq : (x : ℚ) < 20 := by
    have : x < 20 := by simpa [GRID_WIDTH] using hx1
    exact_mod_cast this
  have hxq0 : (0 : ℚ) ≤ (x : ℚ) := by exact_mod_cast hx0
  have hyq : (y : ℚ) < 30 := by
    have : y < 30 := by simpa [GRID_HEIGHT] using hy1
    exact_mod_cast this
  have hyq1 : (1 : ℚ) ≤ (y : ℚ) := by exact_mod_cast hy0
  refine ⟨fun n => if n = k then (x : ℚ) / (GRID_WIDTH : ℚ)
    else ((y : ℚ) - 1) / ((GRID_HEIGHT : ℚ) - 1), fun n => ?_, ?_⟩
  · by_cases hn : n = k
    · simp only [if_pos hn, hW]
      refine ⟨div_nonneg hxq0 (by norm_num), ?_⟩
      rw [div_lt_one (by norm_num)]
      exact hxq
    · simp only [if_neg hn, hH]
      refine ⟨div_nonneg (by linarith) (by norm_num), ?_⟩
      rw [div_lt_one (by norm_num)]
      linarith
  · have hk1 : ¬ (k + 1 = k) := by omega
    have hfx : (((x : ℚ) / (GRID_WIDTH : ℚ)) * (GRID_WIDTH : ℚ)).floor = x := by
      rw [div_mul_cancel₀ _ (by rw [hW]; norm_num),
        show ((x : ℚ)).floor = ⌊(x : ℚ)⌋ from rfl, Int.floor_intCast]
    have hfy : ((((y : ℚ) - 1) / ((GRID_HEIGHT : ℚ) - 1))
        * ((GRID_HEIGHT : ℚ) - 1)).floor + 1 = y := by
      rw [div_mul_cancel₀ _ (by rw [hH]; norm_num),
        show ((y : ℚ) - 1) = (((y - 1 : Int)) : ℚ) by push_cast; ring,
        show (((y - 1 : Int) : ℚ)).floor = ⌊((y - 1 : Int) : ℚ)⌋ from rfl,
        Int.floor_intCast]
      omega
    simp only [spawnFoodAux, if_neg hk1, eq_self_iff_true, if_true]
    rw [hfx, hfy]
    rw [if_neg]
    simp only [Bool.or_eq_true, decide_eq_true_eq, not_or]
    constructor
    · exact hfree
    · cases os with
      | none => simp
      | some s => simpa using hsnake s rfl

/-- Claim C9 counterexample: in the grid whose static blocks are every cell
with `y ∈ [1, 29]`, a free unoccupied cell exists (the whole top row, e.g.
`(0, 0)`), yet no sequence of genuine random draws makes `spawnFood`
terminate: the loop never samples the top row. -/
theorem spawnFood_nontermination_counterexample :
    (((0, 0) : Cell) ∉ blocksBelowTop) ∧
    ¬ ∃ (rng : ℕ → ℚ) (fuel k : ℕ) (r : Cell × ℕ),
        (∀ n, 0 ≤ rng n ∧ rng n < 1) ∧
        spawnFoodAux blocksBelowTop none rng fuel k = some r := by
  constructor
  · intro hmem
    simp only [blocksBelowTop, List.mem_flatMap, List.mem_map, List.mem_range] at hmem
    obtain ⟨j, -, x', -, heq⟩ := hmem
    rw [Prod.mk.injEq] at heq
    omega
  · rintro ⟨rng, fuel, k, r, hr, h⟩
    rw [spawnFoodAux_none_of_all_blocked blocksBelowTop none rng hr
      (fun x y hx0 hx1 hy0 hy1 =>
        mem_blocksBelowTop x y hx0 (by simpa [GRID_WIDTH] using hx1) hy0
          (by have h2 : y < 30 := by simpa [GRID_HEIGHT] using hy1
              omega)) fuel k] at h
    exact Option.noConfusion h

/-- Membership after a `Map.set`. -/
theorem mem_setBlock (bs : List Cell) (c a : Cell) :
    a ∈ setBlock bs c ↔ a ∈ bs ∨ a = c := by
  by_cases h : c ∈ bs
  · simp only [setBlock, if_pos h]
    constructor
    · exact Or.inl
    · rintro (ha | rfl)
      · exact ha
      · exact h
  · simp [setBlock, if_neg h]

/-- `Map.set` keeps keys duplicate-free. -/
theorem nodup_setBlock (bs : List Cell) (c : Cell) (h : bs.Nodup) :
    (setBlock bs c).Nodup := by
  by_cases hc : c ∈ bs
  · simpa [setBlock, hc]
  · simp [setBlock, hc, List.nodup_append, h]

/-- Folding `Map.set` over a list of keys keeps keys duplicate-free. -/
theorem nodup_foldl_setBlock (l : List Cell) :
    ∀ bs : List Cell, bs.Nodup → (l.foldl setBlock bs).Nodup := by
  induction l with
  | nil => intro bs h; exact h
  | cons c l ih => intro bs h; exact ih (setBlock bs c) (nodup_setBlock bs c h)

/-- Membership after folding `Map.set` over a list of keys. -/
theorem mem_foldl_setBlock (l : List Cell) :
    ∀ (bs : List Cell) (a : Cell),
      a ∈ l.foldl setBlock bs ↔ a ∈ bs ∨ a ∈ l := by
  induction l with
  | nil => intro bs a; simp
  | cons c l ih =>
      intro bs a
      rw [List.foldl_cons, ih, mem_setBlock]
      simp only [List.mem_cons]
      tauto

/-- Folding `Map.set` of transformed keys keeps keys duplicate-free. -/
theorem nodup_foldl_setBlock_map (f : Cell → Cell) (l : List Cell) :
    ∀ bs : List Cell, bs.Nodup →
      (l.foldl (fun acc c => setBlock acc (f c)) bs).Nodup := by
  induction l with
  | nil => intro bs h; exact h
  | cons c l ih => intro bs h; exact ih (setBlock bs (f c)) (nodup_setBlock bs (f c) h)

/-- Membership after folding `Map.set` of transformed keys. -/
theorem mem_foldl_setBlock_map (f : Cell → Cell) (l : List Cell) :
    ∀ (bs : List Cell) (a : Cell),
      a ∈ l.foldl (fun acc c => setBlock acc (f c)) bs ↔
        a ∈ bs ∨ ∃ c ∈ l, f c = a := by
  induction l with
  | nil => intro bs a; simp
  | cons c l ih =>
      intro bs a
      rw [List.foldl_cons, ih, mem_setBlock]
      simp only [List.mem_cons]
      constructor
      · rintro ((ha | rfl) | ⟨c', hc', rfl⟩)
        · exact Or.inl ha
        · exact Or.inr ⟨c, Or.inl rfl, rfl⟩
        · exact Or.inr ⟨c', Or.inr hc', rfl⟩
      · rintro (ha | ⟨c', (rfl | hc'), rfl⟩)
        · exact Or.inl (Or.inl ha)
        · exact Or.inl (Or.inr rfl)
        · exact Or.inr ⟨c', hc', rfl⟩

/-- Membership after the deletion pass of `removeLine`. -/
theorem mem_foldl_deleteBlock (l : List Cell) :
    ∀ (bs : List Cell) (a : Cell),
      a ∈ l.foldl deleteBlock bs ↔ a ∈ bs ∧ ∀ c ∈ l, a ≠ c := by
  induction l with
  | nil => intro bs a; simp
  | cons c l ih =>
      intro bs a
      rw [List.foldl_cons, ih]
      simp only [deleteBlock, List.mem_filter, decide_eq_true_eq, List.mem_cons]
      constructor
      · rintro ⟨⟨ha, hac⟩, hrest⟩
        exact ⟨ha, fun c' hc' => hc'.elim (fun h => h ▸ hac) (hrest c')⟩
      · rintro ⟨ha, hall⟩
        exact ⟨⟨ha, hall c (Or.inl rfl)⟩, fun c' hc' => hall c' (Or.inr hc')⟩

/-- The deletion pass keeps keys duplicate-free. -/
theorem nodup_foldl_deleteBlock (l : List Cell) :
    ∀ bs : List Cell, bs.Nodup → (l.foldl deleteBlock bs).Nodup := by
  induction l with
  | nil => intro bs h; exact h
  | cons c l ih =>
      intro bs h
      exact ih (deleteBlock bs c) (List.Nodup.filter _ h)

/-- Membership after folding key deletions (the deletion pass of
`removeLine` deletes the keys `(x, y)` for `x ∈ [0, GRID_WIDTH)`). -/
theorem mem_foldl_deleteBlock_key (g : ℕ → Cell) (l : List ℕ) :
    ∀ (bs : List Cell) (a : Cell),
      a ∈ l.foldl (fun acc x => deleteBlock acc (g x)) bs ↔
        a ∈ bs ∧ ∀ x ∈ l, a ≠ g x := by
  induction l with
  | nil => intro bs a; simp
  | cons c l ih =>
      intro bs a
      rw [List.foldl_cons, ih]
      simp only [deleteBlock, List.mem_filter, decide_eq_true_eq, List.mem_cons]
      constructor
      · rintro ⟨⟨ha, hac⟩, hrest⟩
        exact ⟨ha, fun x hx => hx.elim (fun h => h ▸ hac) (hrest x)⟩
      · rintro ⟨ha, hall⟩
        exact ⟨⟨ha, hall c (Or.inl rfl)⟩, fun x hx => hall x (Or.inr hx)⟩

/-- Key deletions keep keys duplicate-free. -/
theorem nodup_foldl_deleteBlock_key (g : ℕ → Cell) (l : List ℕ) :
    ∀ bs : List Cell, bs.Nodup →
      (l.foldl (fun acc x => deleteBlock acc (g x)) bs).Nodup := by
  induction l with
  | nil => intro bs h; exact h
  | cons c l ih =>
      intro bs h
      exact ih (deleteBlock bs (g c)) (List.Nodup.filter _ h)

/-- A cell escapes the deletion pass of `removeLine y` iff it is not one of
the in-range cells of row `y`. -/
theorem survives_delete_iff (c : Cell) (y : Int) :
    (∀ x ∈ List.range GRID_WIDTH.toNat, c ≠ ((x : Int), y)) ↔
      ¬(c.2 = y ∧ 0 ≤ c.1 ∧ c.1 < GRID_WIDTH) := by
  constructor
  · rintro h ⟨hy, hx0, hx1⟩
    have hm : c.1.toNat ∈ List.range GRID_WIDTH.toNat := by
      apply List.mem_range.mpr
      simp only [GRID_WIDTH] at hx1 ⊢
      omega
    exact h c.1.toNat hm (Prod.ext (by omega) hy)
  · intro h x hx hc
    refine h ?_
    subst hc
    have hx20 : x < 20 := by
      simpa [GRID_WIDTH] using List.mem_range.mp hx
    refine ⟨rfl, by simp, ?_⟩
    simp only [GRID_WIDTH]
    exact_mod_cast hx20

/-- The result of `removeLine` never duplicates a key. -/
theorem nodup_removeLine (bs : List Cell) (y : Int) :
    (removeLine bs y).Nodup := by
  unfold removeLine
  exact nodup_foldl_setBlock_map _ _ [] List.nodup_nil

/-- Raw membership in the result of `removeLine`. -/
theorem mem_removeLine (bs : List Cell) (y : Int) (a : Cell) :
    a ∈ removeLine bs y ↔
      ∃ c ∈ bs, ¬(c.2 = y ∧ 0 ≤ c.1 ∧ c.1 < GRID_WIDTH) ∧
        ((c.1, if c.2 < y then c.2 + 1 else c.2) : Cell) = a := by
  unfold removeLine
  rw [mem_foldl_setBlock_map]
  simp only [List.not_mem_nil, false_or]
  constructor
  · rintro ⟨c, hc, hshift⟩
    rw [mem_foldl_deleteBlock_key] at hc
    exact ⟨c, hc.1, (survives_delete_iff c y).mp hc.2, hshift⟩
  · rintro ⟨c, hc, hsurv, hshift⟩
    refine ⟨c, ?_, hshift⟩
    rw [mem_foldl_deleteBlock_key]
    exact ⟨hc, (survives_delete_iff c y).mpr hsurv⟩

/-- Membership in `removeLine` for a field whose keys all lie in the
horizontal range: the cleared row vanishes, rows above shift down one. -/
theorem mem_removeLine_char (bs : List Cell) (y : Int)
    (hx : ∀ c ∈ bs, 0 ≤ c.1 ∧ c.1 < GRID_WIDTH) (a : Cell) :
    a ∈ removeLine bs y ↔
      (y < a.2 ∧ a ∈ bs) ∨ (a.2 ≤ y ∧ ((a.1, a.2 - 1) : Cell) ∈ bs) := by
  rw [mem_removeLine]
  constructor
  · rintro ⟨c, hc, hsurv, hshift⟩
    have hcy : c.2 ≠ y := fun h => hsurv ⟨h, hx c hc⟩
    by_cases hlt : c.2 < y
    · rw [if_pos hlt] at hshift
      right
      rw [← hshift]
      exact ⟨by omega, by simpa using hc⟩
    · rw [if_neg hlt] at hshift
      left
      rw [← hshift]
      simp only [Prod.mk.eta]
      exact ⟨by omega, hc⟩
  · rintro (⟨hya, ha⟩ | ⟨hay, hb⟩)
    · refine ⟨a, ha, fun h => by omega, ?_⟩
      rw [if_neg (by omega)]
    · refine ⟨(a.1, a.2 - 1), hb, fun h => by omega, ?_⟩
      rw [if_pos (show a.2 - 1 < y by omega)]
      simp only
      rw [Prod.mk.injEq]
      refine ⟨rfl, by ring⟩
      

/-- Two Booleans agreeing as propositions are equal. -/
theorem bool_eq_of_iff (a b : Bool) (h : a = true ↔ b = true) : a = b := by
  cases a <;> cases b <;> simp_all

/-- `isLineFull` as a proposition. -/
theorem isLineFull_iff (bs : List Cell) (y : Int) :
    isLineFull bs y = true ↔
      ∀ x : Int, 0 ≤ x → x < GRID_WIDTH → ((x, y) : Cell) ∈ bs := by
  unfold isLineFull
  rw [List.all_eq_true]
  constructor
  · intro h x hx0 hx1
    have hm : x.toNat ∈ List.range GRID_WIDTH.toNat := by
      apply List.mem_range.mpr
      simp only [GRID_WIDTH] at hx1 ⊢
      omega
    have := h x.toNat hm
    rw [decide_eq_true_eq] at this
    have hxe : ((x.toNat : ℕ) : Int) = x := by omega
    rwa [hxe] at this
  · intro h x hx
    rw [decide_eq_true_eq]
    have hx20 : x < 20 := by simpa [GRID_WIDTH] using List.mem_range.mp hx
    exact h x (by simp) (by simp only [GRID_WIDTH]; exact_mod_cast hx20)

/-- After `removeLine y`, a row at or below `y` is full iff the row above
it was full before (everything above the cleared row shifted down one). -/
theorem isLineFull_removeLine (bs : List Cell) (y y' : Int)
    (hx : ∀ c ∈ bs, 0 ≤ c.1 ∧ c.1 < GRID_WIDTH) (h : y' ≤ y) :
    isLineFull (removeLine bs y) y' = isLineFull bs (y' - 1) := by
  apply bool_eq_of_iff
  rw [isLineFull_iff, isLineFull_iff]
  constructor
  · intro hf x hx0 hx1
    have := hf x hx0 hx1
    rw [mem_removeLine_char bs y hx] at this
    rcases this with ⟨hy, _⟩ | ⟨_, hb⟩
    · omega
    · simpa using hb
  · intro hf x hx0 hx1
    rw [mem_removeLine_char bs y hx]
    exact Or.inr ⟨h, by simpa using hf x hx0 hx1⟩

/-- The scan result never duplicates a key. -/
theorem clearLinesAux_nodup (rec : ℕ) :
    ∀ (y : Int) (bs : List Cell), bs.Nodup → (clearLinesAux rec y bs).2.Nodup := by
  induction rec with
  | zero => intro y bs h; exact h
  | succ n ih =>
      intro y bs h
      rw [clearLinesAux]
      by_cases hy : y < 0
      · rwa [if_pos hy]
      · rw [if_neg hy]
        by_cases hf : isLineFull bs y = true
        · rw [if_pos hf]
          exact ih y (removeLine bs y) (nodup_removeLine bs y)
        · rw [if_neg hf]
          exact ih (y - 1) bs h

/-- A scan over rows none of which is full clears nothing. -/
theorem clearLinesAux_no_full (rec : ℕ) :
    ∀ (y : Int) (bs : List Cell),
      (∀ y' : Int, 0 ≤ y' → y' ≤ y → isLineFull bs y' = false) →
      clearLinesAux rec y bs = (0, bs) := by
  induction rec with
  | zero => intro y bs _; rfl
  | succ n ih =>
      intro y bs h
      rw [clearLinesAux]
      by_cases hy : y < 0
      · rw [if_pos hy]
      · rw [if_neg hy]
        rw [if_neg (by rw [h y (by omega) (le_refl y)]; exact Bool.false_ne_true)]
        exact ih (y - 1) bs (fun y' h0 h1 => h y' h0 (by omega))

/-- Descending over non-full rows reaches the first candidate row with the
fuel decreased one per row. -/
theorem clearLinesAux_descend (n : ℕ) :
    ∀ (f : ℕ) (y0 : Int) (bs : List Cell), 0 ≤ y0 →
      (∀ y' : Int, y0 < y' → y' ≤ y0 + (n : Int) → isLineFull bs y' = false) →
      clearLinesAux (n + f) (y0 + (n : Int)) bs = clearLinesAux f y0 bs := by
  induction n with
  | zero => intro f y0 bs _ _; simp
  | succ n ih =>
      intro f y0 bs hy0 h
      have hstep : (n + 1 + f) = (n + f) + 1 := by omega
      rw [hstep, clearLinesAux]
      rw [if_neg (by push_cast; omega)]
      rw [if_neg (by
        rw [h (y0 + ((n + 1 : ℕ) : Int)) (by push_cast; omega) (le_refl _)]
        exact Bool.false_ne_true)]
      rw [show y0 + (((n : ℕ) + 1 : ℕ) : Int) - 1 = y0 + (n : Int) by push_cast; ring]
      exact ih f y0 bs hy0 (fun y' h1 h2 => h y' h1 (by push_cast; omega))

/-- Length of a fold of `Map.set` with pairwise-distinct fresh keys. -/
theorem length_foldl_setBlock_map (f : Cell → Cell) (l : List Cell) :
    ∀ bs : List Cell, (l.map f).Nodup → (∀ c ∈ l, f c ∉ bs) →
      (l.foldl (fun acc c => setBlock acc (f c)) bs).length
        = bs.length + l.length := by
  induction l with
  | nil => intro bs _ _; simp
  | cons c l ih =>
      intro bs hnd hfresh
      rw [List.map_cons, List.nodup_cons] at hnd
      rw [List.foldl_cons]
      rw [show setBlock bs (f c) = bs ++ [f c] from
        if_neg (hfresh c (List.mem_cons_self c l))]
      rw [ih (bs ++ [f c]) hnd.2 ?_]
      · simp only [List.length_append, List.length_cons, List.length_nil]
        omega
      · intro c' hc'
        simp only [List.mem_append, List.mem_singleton, not_or]
        refine ⟨hfresh c' (List.mem_cons_of_mem c hc'), ?_⟩
        intro he
        exact hnd.1 (he ▸ List.mem_map_of_mem f hc')

/-- Membership in a full row. -/
theorem mem_fullRow (y : Int) (a : Cell) :
    a ∈ fullRow y ↔ a.2 = y ∧ 0 ≤ a.1 ∧ a.1 < 20 := by
  constructor
  · intro h
    simp only [fullRow, List.mem_map, List.mem_range] at h
    obtain ⟨x, hx, he⟩ := h
    rw [Prod.mk.injEq] at he
    obtain ⟨h1, h2⟩ := he
    refine ⟨h2.symm, by omega, by omega⟩
  · rintro ⟨hy, hx0, hx1⟩
    have he : ((((a.1.toNat : ℕ) : Int), y) : Cell) = a :=
      Prod.ext (by omega) hy.symm
    exact List.mem_map.mpr ⟨a.1.toNat, List.mem_range.mpr (by omega), he⟩

/-- A full row has no duplicate cell. -/
theorem nodup_fullRow (y : Int) : (fullRow y).Nodup := by
  refine List.Nodup.map_on ?_ (List.nodup_range 20)
  intro x hx x' hx' he
  rw [Prod.mk.injEq] at he
  omega

/-- A full row has `GRID_WIDTH` cells. -/
theorem length_fullRow (y : Int) : (fullRow y).length = 20 := by
  simp [fullRow]

set_option maxHeartbeats 1000000 in
/-- The double-row instance: both simultaneously full bottom rows of
`gDouble` are cleared in one call. -/
theorem gDouble_cleared : gDouble.clearLines.1 = 2 ∧
    gDouble.clearLines.2.staticBlocks = [((3, 7) : Cell), (0, 29)] := by
  constructor
  · with_unfolding_all rfl
  · with_unfolding_all rfl

/-- Claim C4: `Grid.clearLines` scans from the bottom row upward,
re-examining the same row index after each shift; on a grid whose only full
row (among the rows the scan can meet, `y ∈ [-1, GRID_HEIGHT−1]`) is `y0`,
it returns exactly 1, removes exactly that row, shifts every block with
`y < y0` down one, and the static block count decreases by exactly
`GRID_WIDTH`; and on the concrete grid `gDouble` with two simultaneously
full adjacent bottom rows it returns 2 and double-shifts everything above. -/
theorem clearLines_spec (g : Grid) (y0 : Int)
    (hy0 : 0 ≤ y0) (hy29 : y0 ≤ GRID_HEIGHT - 1)
    (hnodup : g.staticBlocks.Nodup)
    (hx : ∀ c ∈ g.staticBlocks, 0 ≤ c.1 ∧ c.1 < GRID_WIDTH)
    (hfull : isLineFull g.staticBlocks y0 = true)
    (hothers : ∀ y' : Int, -1 ≤ y' → y' ≤ GRID_HEIGHT - 1 → y' ≠ y0 →
      isLineFull g.staticBlocks y' = false) :
    g.clearLines.1 = 1 ∧
    g.clearLines.2.staticBlocks = removeLine g.staticBlocks y0 ∧
    (∀ a : Cell, a ∈ g.clearLines.2.staticBlocks ↔
      (y0 < a.2 ∧ a ∈ g.staticBlocks) ∨
      (a.2 ≤ y0 ∧ ((a.1, a.2 - 1) : Cell) ∈ g.staticBlocks)) ∧
    g.clearLines.2.staticBlocks.length + GRID_WIDTH.toNat = g.staticBlocks.length ∧
    (gDouble.clearLines.1 = 2 ∧
      gDouble.clearLines.2.staticBlocks = [((3, 7) : Cell), (0, 29)]) := by
  have hGH : GRID_HEIGHT.toNat = 30 := rfl
  have hGW : GRID_WIDTH.toNat = 20 := rfl
  have hy0' : y0 ≤ 29 := by simpa [GRID_HEIGHT] using hy29
  have htn : ((GRID_HEIGHT - 1 - y0).toNat : Int) = GRID_HEIGHT - 1 - y0 := by
    simp only [GRID_HEIGHT]
    omega
  have htn' : (GRID_HEIGHT - 1 - y0).toNat ≤ 29 := by
    simp only [GRID_HEIGHT]
    omega
  -- the scan hits row y0 and clears exactly it
  have hscan : clearLinesAux (GRID_HEIGHT.toNat + 1 + g.staticBlocks.length)
      (GRID_HEIGHT - 1) g.staticBlocks = (1, removeLine g.staticBlocks y0) := by
    have hnofull : ∀ y' : Int, 0 ≤ y' → y' ≤ y0 →
        isLineFull (removeLine g.staticBlocks y0) y' = false := by
      intro y' h0 h1
      rw [isLineFull_removeLine g.staticBlocks y0 y' hx h1]
      exact hothers (y' - 1) (by omega) (by simp only [GRID_HEIGHT]; omega)
        (by omega)
    have hr := clearLinesAux_no_full
      (GRID_HEIGHT.toNat + 1 + g.staticBlocks.length
        - (GRID_HEIGHT - 1 - y0).toNat - 1) y0
      (removeLine g.staticBlocks y0) hnofull
    have hstep : clearLinesAux (GRID_HEIGHT.toNat + 1 + g.staticBlocks.length
        - (GRID_HEIGHT - 1 - y0).toNat) y0 g.staticBlocks
        = (1, removeLine g.staticBlocks y0) := by
      rw [show GRID_HEIGHT.toNat + 1 + g.staticBlocks.length
          - (GRID_HEIGHT - 1 - y0).toNat
          = (GRID_HEIGHT.toNat + 1 + g.staticBlocks.length
            - (GRID_HEIGHT - 1 - y0).toNat - 1) + 1 by
        rw [hGH]
        omega]
      rw [clearLinesAux]
      rw [if_neg (by omega), if_pos hfull, hr]
    have hdes := clearLinesAux_descend (GRID_HEIGHT - 1 - y0).toNat
      (GRID_HEIGHT.toNat + 1 + g.staticBlocks.length
        - (GRID_HEIGHT - 1 - y0).toNat) y0 g.staticBlocks hy0
      (fun y' h1 h2 => hothers y' (by omega) (by omega) (by omega))
    rw [show (GRID_HEIGHT - 1 - y0).toNat
        + (GRID_HEIGHT.toNat + 1 + g.staticBlocks.length
          - (GRID_HEIGHT - 1 - y0).toNat)
        = GRID_HEIGHT.toNat + 1 + g.staticBlocks.length by
      rw [hGH]
      omega] at hdes
    rw [show y0 + ((GRID_HEIGHT - 1 - y0).toNat : Int) = GRID_HEIGHT - 1 by
      omega] at hdes
    rw [hdes, hstep]
  -- the length of the shifted field
  have hDnodup : ((List.range GRID_WIDTH.toNat).foldl
      (fun acc (x : ℕ) => deleteBlock acc ((x : Int), y0))
      g.staticBlocks).Nodup :=
    nodup_foldl_deleteBlock_key _ _ g.staticBlocks hnodup
  have hDmem : ∀ a : Cell, a ∈ (List.range GRID_WIDTH.toNat).foldl
      (fun acc (x : ℕ) => deleteBlock acc ((x : Int), y0)) g.staticBlocks ↔
      a ∈ g.staticBlocks ∧ ¬(a.2 = y0 ∧ 0 ≤ a.1 ∧ a.1 < GRID_WIDTH) := by
    intro a
    rw [mem_foldl_deleteBlock_key]
    exact and_congr_right (fun _ => survives_delete_iff a y0)
  have hDny : ∀ a ∈ (List.range GRID_WIDTH.toNat).foldl
      (fun acc (x : ℕ) => deleteBlock acc ((x : Int), y0)) g.staticBlocks,
      a.2 ≠ y0 := by
    intro a ha
    rw [hDmem] at ha
    exact fun he => ha.2 ⟨he, hx a ha.1⟩
  have hmapnd : (((List.range GRID_WIDTH.toNat).foldl
      (fun acc (x : ℕ) => deleteBlock acc ((x : Int), y0)) g.staticBlocks).map
      (fun c => ((c.1, if c.2 < y0 then c.2 + 1 else c.2) : Cell))).Nodup := by
    refine List.Nodup.map_on ?_ hDnodup
    intro c hc c' hc' he
    rw [Prod.mk.injEq] at he
    obtain ⟨h1, h2⟩ := he
    have hcy := hDny c hc
    have hcy' := hDny c' hc'
    refine Prod.ext h1 ?_
    split_ifs at h2 with ha hb hb <;> omega
  have hrl : removeLine g.staticBlocks y0
      = ((List.range GRID_WIDTH.toNat).foldl
        (fun acc (x : ℕ) => deleteBlock acc ((x : Int), y0)) g.staticBlocks).foldl
        (fun acc c => setBlock acc ((c.1, if c.2 < y0 then c.2 + 1 else c.2) : Cell))
        [] := rfl
  have hlenD : (removeLine g.staticBlocks y0).length
      = ((List.range GRID_WIDTH.toNat).foldl
        (fun acc (x : ℕ) => deleteBlock acc ((x : Int), y0))
        g.staticBlocks).length := by
    rw [hrl, length_foldl_setBlock_map _ _ [] hmapnd
      (fun c _ => List.not_mem_nil _)]
    simp
  have hsub : (fullRow y0).toFinset ⊆ g.staticBlocks.toFinset := by
    intro a ha
    rw [List.mem_toFinset] at ha ⊢
    rw [mem_fullRow] at ha
    have hm := (isLineFull_iff _ _).mp hfull a.1 ha.2.1
      (by simp only [GRID_WIDTH]; exact ha.2.2)
    have he : a = ((a.1, y0) : Cell) := Prod.ext rfl ha.1
    rwa [he]
  have hDfin : ((List.range GRID_WIDTH.toNat).foldl
      (fun acc (x : ℕ) => deleteBlock acc ((x : Int), y0))
      g.staticBlocks).toFinset
      = g.staticBlocks.toFinset \ (fullRow y0).toFinset := by
    ext a
    simp only [List.mem_toFinset, Finset.mem_sdiff, hDmem, mem_fullRow]
    simp only [GRID_WIDTH]
  have hcard := Finset.card_sdiff hsub
  have hc1 : ((List.range GRID_WIDTH.toNat).foldl
      (fun acc (x : ℕ) => deleteBlock acc ((x : Int), y0))
      g.staticBlocks).toFinset.card
      = ((List.range GRID_WIDTH.toNat).foldl
        (fun acc (x : ℕ) => deleteBlock acc ((x : Int), y0))
        g.staticBlocks).length := List.toFinset_card_of_nodup hDnodup
  have hc2 : g.staticBlocks.toFinset.card = g.staticBlocks.length :=
    List.toFinset_card_of_nodup hnodup
  have hc3 : (fullRow y0).toFinset.card = 20 := by
    rw [List.toFinset_card_of_nodup (nodup_fullRow y0), length_fullRow]
  have hc4 := Finset.card_le_card hsub
  have hlen : (removeLine g.staticBlocks y0).length + 20
      = g.staticBlocks.length := by
    rw [hlenD, ← hc1, hDfin, hcard, hc2, hc3]
    rw [hc2, hc3] at hc4
    omega
  have hcount : g.clearLines.1 = 1 := by
    simp only [Grid.clearLines]
    rw [hscan]
  have hblocks : g.clearLines.2.staticBlocks = removeLine g.staticBlocks y0 := by
    simp only [Grid.clearLines]
    rw [hscan]
  refine ⟨hcount, hblocks, ?_, ?_, gDouble_cleared⟩
  · intro a
    rw [hblocks]
    exact mem_removeLine_char g.staticBlocks y0 hx a
  · rw [hblocks, hGW]
    exact hlen

/-- Running a list of frames from a reachable state reaches a reachable
state. -/
theorem reachable_of_run (rng : ℕ → ℚ) (fuel : ℕ) :
    ∀ (l : List TickIn) (st : Game) (k : ℕ) (st' : Game) (k' : ℕ),
      st.Reachable → Game.run rng fuel l st k = some (st', k') →
      st'.Reachable := by
  intro l
  induction l with
  | nil =>
      intro st k st' k' hr h
      simp only [Game.run, Option.some.injEq, Prod.mk.injEq] at h
      rw [← h.1]
      exact hr
  | cons ti rest ih =>
      intro st k st' k' hr h
      simp only [Game.run] at h
      split at h
      next p hp =>
        exact ih p.1 p.2 st' k'
          (Game.Reachable.step st ti rng k fuel p.1 p.2 hr (by rw [hp])) h
      next hp => exact Option.noConfusion h

/-- `spawnFood` only moves the food: the static field is untouched. -/
theorem spawnFood_staticBlocks (g : Grid) (os : Option Snake) (rng : ℕ → ℚ)
    (k fuel : ℕ) (g' : Grid) (k' : ℕ)
    (h : g.spawnFood os rng k fuel = some (g', k')) :
    g'.staticBlocks = g.staticBlocks ∧ g'.landedBlocks = g.landedBlocks := by
  simp only [Grid.spawnFood, Option.map_eq_some'] at h
  obtain ⟨p, -, hg'⟩ := h
  rw [Prod.mk.injEq] at hg'
  rw [← hg'.1]
  exact ⟨rfl, rfl⟩

/-- A lock-and-respawn leaves the static field duplicate-free. -/
theorem handleCollision_blocks_nodup (st : Game) (rng : ℕ → ℚ) (k : ℕ)
    (hn : st.grid.staticBlocks.Nodup) :
    (Game.handleCollision st rng k).1.grid.staticBlocks.Nodup := by
  simp only [Game.handleCollision, Grid.clearLines, Grid.lockSnake]
  exact clearLinesAux_nodup _ _ _ (nodup_foldl_setBlock _ _ hn)

/-- A movement step leaves the static field duplicate-free. -/
theorem updateSnake_blocks_nodup (st : Game) (now : ℚ) (rng : ℕ → ℚ)
    (k fuel : ℕ) (p : Game × ℕ)
    (h : Game.updateSnake st now rng k fuel = some p)
    (hn : st.grid.staticBlocks.Nodup) : p.1.grid.staticBlocks.Nodup := by
  simp only [Game.updateSnake] at h
  split at h
  · rw [← Option.some.inj h]
    exact handleCollision_blocks_nodup st rng k hn
  · split at h
    · rw [← Option.some.inj h]
      exact handleCollision_blocks_nodup st rng k hn
    · split at h
      · split at h
        next q hq =>
          rw [← Option.some.inj h]
          have := spawnFood_staticBlocks _ _ _ _ _ _ _ hq
          simpa [this.1] using hn
        next hq => exact Option.noConfusion h
      · rw [← Option.some.inj h]
        exact hn

/-- A frame leaves the static field duplicate-free. -/
theorem tick_blocks_nodup (st : Game) (ti : TickIn) (rng : ℕ → ℚ)
    (k fuel : ℕ) (p : Game × ℕ)
    (h : Game.tick st ti rng k fuel = some p)
    (hn : st.grid.staticBlocks.Nodup) : p.1.grid.staticBlocks.Nodup := by
  simp only [Game.tick] at h
  split at h
  · rw [← Option.some.inj h]
    exact hn
  · exact updateSnake_blocks_nodup _ _ _ _ _ _ h hn

/-- A session starts with an empty static field. -/
theorem reset_staticBlocks (rng : ℕ → ℚ) (k fuel : ℕ) (p : Game × ℕ)
    (h : Game.reset rng k fuel = some p) :
    p.1.grid.staticBlocks = [] := by
  simp only [Game.reset] at h
  split at h
  · exact Option.noConfusion h
  next g1 hg1 =>
    split at h
    · exact Option.noConfusion h
    next g2 hg2 =>
      rw [← Option.some.inj h]
      have h1 := spawnFood_staticBlocks _ _ _ _ _ _ _ hg1
      have h2 := spawnFood_staticBlocks _ _ _ _ _ _ _ hg2
      simp only at h1 h2 ⊢
      rw [h2.1, h1.1]

/-- Claim C2 (amended): in every reachable game state the static block
field holds at most one entry per cell; but `Grid.lockSnake` inserts every
snake segment's coordinates verbatim — the membership characterisation
below — so out-of-grid coordinates (negative `y`, from a snake locked while
its tail is still above the grid) do reach the field
(see the counterexample). -/
theorem staticBlocks_nodup_and_lockSnake_mem :
    (∀ st : Game, st.Reachable → st.grid.staticBlocks.Nodup) ∧
    (∀ (g : Grid) (s : Snake) (k : ℕ) (a : Cell),
      a ∈ (g.lockSnake s k).1.staticBlocks ↔
        a ∈ g.staticBlocks ∨ a ∈ s.body) := by
  constructor
  · intro st h
    induction h with
    | init rng k fuel st k' he =>
        rw [show st.grid.staticBlocks = ((st, k') : Game × ℕ).1.grid.staticBlocks
          from rfl, reset_staticBlocks rng k fuel (st, k') he]
        exact List.nodup_nil
    | step st ti rng k fuel st' k' hre he ih =>
        exact tick_blocks_nodup st ti rng k fuel (st', k') he ih
  · intro g s k a
    simp only [Grid.lockSnake]
    exact mem_foldl_setBlock s.body g.staticBlocks a

set_option maxRecDepth 100000 in
set_option maxHeartbeats 1000000 in
/-- Claim C2 counterexample: a reachable state whose static field holds a
block above the grid (negative `y`): the snake that stacked column 10 up to
row 2 locks with two of its segments still above the grid. -/
theorem out_of_bounds_block_counterexample :
    ∃ st : Game, st.Reachable ∧ ∃ c ∈ st.grid.staticBlocks, c.2 < 0 := by
  refine ⟨st2final, ?_, ((10 : Int), -1), ?_, by norm_num⟩
  · exact reachable_of_run rngB 1 trace2 st2start 5 st2final 45
      (Game.Reachable.init rngB 0 1 st2start 5 (by with_unfolding_all rfl))
      (by with_unfolding_all rfl)
  · decide

/-- The snake body produced by `Snake.spawn` is duplicate-free: the
segments' `y` coordinates descend one per index. -/
theorem spawn_body_nodup (rng : ℕ → ℚ) (k : ℕ) :
    ((Snake.spawn rng k).1).body.Nodup := by
  simp only [Snake.spawn]
  refine List.Nodup.map ?_ (List.nodup_range _)
  intro a b h
  rw [Prod.mk.injEq] at h
  omega

/-- A lock-and-respawn leaves the snake body duplicate-free (it is a fresh
spawn). -/
theorem handleCollision_body_nodup (st : Game) (rng : ℕ → ℚ) (k : ℕ) :
    ((Game.handleCollision st rng k).1).snake.body.Nodup := by
  simp only [Game.handleCollision]
  exact spawn_body_nodup rng _

/-- The body after a `Snake.move` with no buffered turn pending. -/
theorem move_body_eq (s : Snake) (now : ℚ) (eat : Bool)
    (hnd : s.nextDirection = none) :
    (s.move now eat).body =
      if eat then
        ((s.getHead.1 + s.direction.1, s.getHead.2 + s.direction.2) :: s.body)
      else
        ((s.getHead.1 + s.direction.1, s.getHead.2 + s.direction.2)
          :: s.body).dropLast := by
  cases eat <;> simp [Snake.move, hnd]

/-- A negative `isCollidingWith` check (tail excluded) clears every body
segment other than the head and the tail of sitting at `(x, y)`. -/
theorem isCollidingWith_no_middle (s : Snake) (x y : Int)
    (h : s.isCollidingWith x y true = false) (i : ℕ) (hi : i < s.body.length)
    (h0 : i ≠ 0) (ht : i ≠ s.body.length - 1) : s.body[i] ≠ (x, y) := by
  intro heq
  have hmem : ((i, s.body[i]) : ℕ × Cell) ∈ s.body.enum :=
    List.mem_enum_iff_getElem?.mpr (by rw [List.getElem?_eq_getElem hi])
  simp only [Snake.isCollidingWith, List.any_eq_false] at h
  have h2 := h (i, s.body[i]) hmem
  simp [h0, ht, heq] at h2

/-- Claim C10 (amended): the snake body is duplicate-free at spawn; and one
movement step (`Game.updateSnake`) preserves duplicate-freeness provided no
buffered turn is pending, the body is nonempty, the direction is nonzero,
and the food does not lie on the body — this last side condition, which the
code does not guarantee (a respawn can put the food on the head, claim C3),
is exactly what fails in the counterexample. -/
theorem snake_body_nodup_preserved (st : Game) (now : ℚ) (rng : ℕ → ℚ)
    (k fuel : ℕ) (p : Game × ℕ)
    (hnd : st.snake.nextDirection = none)
    (hne : st.snake.body ≠ [])
    (hdir : st.snake.direction ≠ (0, 0))
    (hnodup : st.snake.body.Nodup)
    (hfood : st.grid.food ∉ st.snake.body)
    (he : Game.updateSnake st now rng k fuel = some p) :
    ((Snake.spawn rng k).1).body.Nodup ∧ p.1.snake.body.Nodup := by
  refine ⟨spawn_body_nodup rng k, ?_⟩
  simp only [Game.updateSnake] at he
  split at he
  next hw =>
    rw [← Option.some.inj he]
    exact handleCollision_body_nodup st rng k
  next hw =>
    split at he
    next hcol =>
      rw [← Option.some.inj he]
      exact handleCollision_body_nodup st rng k
    next hcol =>
      rw [Bool.not_eq_true] at hcol
      split at he
      next heat =>
        split at he
        next q hq =>
          rw [← Option.some.inj he]
          show (st.snake.move now
            (st.grid.isSnakeEatingFood (st.snake.getHead.1 + st.snake.direction.1)
              (st.snake.getHead.2 + st.snake.direction.2))).body.Nodup
          rw [heat, move_body_eq st.snake now true hnd, if_pos rfl]
          refine List.nodup_cons.mpr ⟨?_, hnodup⟩
          simp only [Grid.isSnakeEatingFood, Bool.and_eq_true,
            decide_eq_true_eq] at heat
          have hfd : ((st.snake.getHead.1 + st.snake.direction.1,
              st.snake.getHead.2 + st.snake.direction.2) : Cell) =
              st.grid.food := by
            rw [Prod.ext_iff]
            exact ⟨heat.1, heat.2⟩
          rw [hfd]
          exact hfood
        next hq => exact Option.noConfusion he
      next heat =>
        rw [Bool.not_eq_true] at heat
        rw [← Option.some.inj he]
        show (st.snake.move now
            (st.grid.isSnakeEatingFood (st.snake.getHead.1 + st.snake.direction.1)
              (st.snake.getHead.2 + st.snake.direction.2))).body.Nodup
        rw [heat, move_body_eq st.snake now false hnd, if_neg Bool.false_ne_true,
          List.dropLast_cons_of_ne_nil hne]
        refine List.nodup_cons.mpr
          ⟨?_, List.Nodup.sublist (List.dropLast_sublist _) hnodup⟩
        intro hmem
        obtain ⟨i, hi, hgi⟩ := List.mem_iff_getElem.mp hmem
        rw [List.getElem_dropLast] at hgi
        rw [List.length_dropLast] at hi
        by_cases h0 : i = 0
        · subst h0
          obtain ⟨c, rest, hbody⟩ := List.exists_cons_of_ne_nil hne
          simp only [hbody, List.getElem_cons_zero] at hgi
          have hh : st.snake.getHead = c := by simp [Snake.getHead, hbody]
          rw [hh] at hgi
          simp only [Prod.ext_iff] at hgi
          have hd1 : st.snake.direction.1 = 0 := by omega
          have hd2 : st.snake.direction.2 = 0 := by omega
          exact hdir (Prod.ext hd1 hd2)
        · exact isCollidingWith_no_middle st.snake
            (st.snake.getHead.1 + st.snake.direction.1)
            (st.snake.getHead.2 + st.snake.direction.2) hcol i (by omega) h0
            (by omega) hgi

/-- Concrete instance of the amended C10 preservation: one input-free step
from the length-1 session start `st3start` keeps the body duplicate-free. -/
theorem snake_body_nodup_preserved_witness :
    (st3start.snake.nextDirection = none ∧ st3start.snake.body ≠ [] ∧
      st3start.snake.direction ≠ (0, 0) ∧ st3start.snake.body.Nodup ∧
      st3start.grid.food ∉ st3start.snake.body ∧
      Game.updateSnake st3start 0 (fun _ => (0 : ℚ)) 0 1 = some (st3step, 0)) ∧
    ((Snake.spawn (fun _ => (0 : ℚ)) 0).1).body.Nodup ∧
    ((st3step, 0) : Game × ℕ).1.snake.body.Nodup := by
  have hnd : st3start.snake.nextDirection = none := rfl
  have hne : st3start.snake.body ≠ [] := by decide
  have hdir : st3start.snake.direction ≠ (0, 0) := by decide
  have hnodup : st3start.snake.body.Nodup := by decide
  have hfood : st3start.grid.food ∉ st3start.snake.body := by decide
  have he : Game.updateSnake st3start 0 (fun _ => (0 : ℚ)) 0 1 =
      some (st3step, 0) := by with_unfolding_all rfl
  exact ⟨⟨hnd, hne, hdir, hnodup, hfood, he⟩,
    snake_body_nodup_preserved st3start 0 (fun _ => (0 : ℚ)) 0 1 (st3step, 0)
      hnd hne hdir hnodup hfood he⟩

set_option maxRecDepth 100000 in
/-- Claim C10 counterexample: a reachable state whose snake body holds the
same cell twice — the snake runs a tight square loop and eats the food that
a respawn had put on its own former head cell (then its tail), so the cell
(10, 6) enters the body a second time without the first copy being
dropped. -/
theorem duplicate_segment_counterexample :
    ∃ st : Game, st.Reachable ∧ ¬ st.snake.body.Nodup := by
  refine ⟨st10final, ?_, by decide⟩
  exact reachable_of_run rngC 1 trace10 st3start 5 st10final 13
    (Game.Reachable.init rngC 0 1 st3start 5 (by with_unfolding_all rfl))
    (by with_unfolding_all rfl)

set_option maxRecDepth 100000 in
/-- Claim C3 counterexample: a reachable state whose food cell lies on a
snake body segment (the head): the fourth food respawn of a six-frame
session lands exactly on the snake's head at (10, 6). -/
theorem food_on_head_counterexample :
    ∃ st : Game, st.Reachable ∧ st.grid.food ∈ st.snake.body := by
  refine ⟨st3final, ?_, by decide⟩
  exact reachable_of_run rngC 1 trace3 st3start 5 st3final 11
    (Game.Reachable.init rngC 0 1 st3start 5 (by with_unfolding_all rfl))
    (by with_unfolding_all rfl)

/-- Concrete instance of the amended C1: the single-segment snake `sPlain`
moves follow-the-leader style. -/
theorem move_follow_the_leader_witness :
    sPlain.body ≠ [] ∧
    ((sPlain.move 50 false).body.head? =
      some (sPlain.getHead.1 + (sPlain.nextDirection.getD sPlain.direction).1,
            sPlain.getHead.2 + (sPlain.nextDirection.getD sPlain.direction).2) ∧
    ∀ i : ℕ, i + 1 < (sPlain.move 50 false).body.length →
      (sPlain.move 50 false).body.get? (i + 1) = sPlain.body.get? i) :=
  ⟨by decide, move_follow_the_leader sPlain 50 false (by decide)⟩

/-- Claim C1 counterexample: for the bent two-segment snake `sBent` moving
right, the implemented `Snake.move` puts segment 1 at (10, 1) — the old
head's cell — whereas a rigid translation of the whole body by the
direction vector would put it at (11, 0). -/
theorem rigid_translation_counterexample :
    (sBent.move 100 false).body.get? 1 = some ((10 : Int), 1) ∧
    (sBent.body.map
        (fun c => (c.1 + sBent.direction.1, c.2 + sBent.direction.2))).get? 1 =
      some ((11 : Int), 0) ∧
    (((10 : Int), 1) : Cell) ≠ ((11 : Int), 0) := by
  refine ⟨by with_unfolding_all rfl, by with_unfolding_all rfl, by decide⟩

/-- Concrete instance of the amended C6: under the all-zero draw stream the
food lands at (0, 1) — in the sampled ranges, off the top row. -/
theorem spawnFood_sample_ranges_witness :
    gEmpty.spawnFood none (fun _ => (0 : ℚ)) 0 1 = some (gFed, 2) ∧
    (0 ≤ gFed.food.1 ∧ gFed.food.1 < GRID_WIDTH ∧
      1 ≤ gFed.food.2 ∧ gFed.food.2 < GRID_HEIGHT) ∧
    gFed.food ∉ gEmpty.staticBlocks ∧
    (∀ s : Snake, (none : Option Snake) = some s →
      s.isCollidingWith gFed.food.1 gFed.food.2 false = false) := by
  have h : gEmpty.spawnFood none (fun _ => (0 : ℚ)) 0 1 = some (gFed, 2) := by
    with_unfolding_all rfl
  exact ⟨h, spawnFood_sample_ranges gEmpty none (fun _ => (0 : ℚ)) 0 1 gFed 2
    (fun n => ⟨le_refl 0, by norm_num⟩) h⟩

/-- Concrete instance of the amended C3: the food just spawned on the empty
grid is neither a static block nor on the (absent) snake. -/
theorem spawnFood_exclusive_witness :
    gEmpty.spawnFood none (fun _ => (0 : ℚ)) 0 1 = some (gFed, 2) ∧
    gFed.isStaticBlock gFed.food.1 gFed.food.2 = false ∧
    (∀ s : Snake, (none : Option Snake) = some s →
      s.isCollidingWith gFed.food.1 gFed.food.2 false = false) := by
  have h : gEmpty.spawnFood none (fun _ => (0 : ℚ)) 0 1 = some (gFed, 2) := by
    with_unfolding_all rfl
  exact ⟨h, spawnFood_exclusive gEmpty none (fun _ => (0 : ℚ)) 0 1 gFed 2 h⟩

/-- Concrete instance of the amended C9: on the empty grid the cell (5, 7)
of the sampled range is free, and a genuine draw stream reaches it in one
sample. -/
theorem spawnFood_terminates_witness :
    ((0 : Int) ≤ 5 ∧ (5 : Int) < GRID_WIDTH ∧ (1 : Int) ≤ 7 ∧
      (7 : Int) < GRID_HEIGHT ∧ ((5, 7) : Cell) ∉ ([] : List Cell)) ∧
    ∃ rng : ℕ → ℚ, (∀ n, 0 ≤ rng n ∧ rng n < 1) ∧
      spawnFoodAux [] none rng 1 0 = some ((5, 7), 0 + 2) :=
  ⟨⟨by decide, by decide, by decide, by decide, by decide⟩,
    spawnFoodAux_terminates_of_free [] none 5 7 0 (by decide) (by decide)
      (by decide) (by decide) (by decide) (fun s h => Option.noConfusion h)⟩

/-- The bottom row of `gSingle` is full. -/
theorem gSingle_bottom_full : isLineFull gSingle.staticBlocks 29 = true := by
  rw [isLineFull_iff]
  intro x hx0 hx1
  simp only [gSingle, List.mem_cons, List.mem_append, List.mem_singleton]
  refine Or.inl (Or.inr ?_)
  rw [mem_fullRow]
  exact ⟨rfl, hx0, by simpa [GRID_WIDTH] using hx1⟩

/-- No row of `gSingle` other than the bottom one is full: column 1 holds
only the bottom-row block. -/
theorem gSingle_no_other_full (y' : Int) (h1 : -1 ≤ y')
    (h2 : y' ≤ GRID_HEIGHT - 1) (hne : y' ≠ 29) :
    isLineFull gSingle.staticBlocks y' = false := by
  rw [Bool.eq_false_iff]
  intro hfull
  rw [isLineFull_iff] at hfull
  have hm := hfull 1 (by norm_num) (by norm_num [GRID_WIDTH])
  simp only [gSingle, List.mem_cons, List.mem_append, List.mem_singleton,
    mem_fullRow, Prod.mk.injEq, List.mem_nil_iff, or_false] at hm
  rcases hm with (h | h) | h <;> omega

set_option maxRecDepth 10000 in
/-- Concrete instance of C4: on `gSingle`, whose only full row is the
bottom one, `clearLines` clears exactly that row. -/
theorem clearLines_spec_witness :
    (isLineFull gSingle.staticBlocks 29 = true ∧ gSingle.staticBlocks.Nodup) ∧
    gSingle.clearLines.1 = 1 ∧
    gSingle.clearLines.2.staticBlocks = removeLine gSingle.staticBlocks 29 ∧
    (∀ a : Cell, a ∈ gSingle.clearLines.2.staticBlocks ↔
      (29 < a.2 ∧ a ∈ gSingle.staticBlocks) ∨
      (a.2 ≤ 29 ∧ ((a.1, a.2 - 1) : Cell) ∈ gSingle.staticBlocks)) ∧
    gSingle.clearLines.2.staticBlocks.length + GRID_WIDTH.toNat =
      gSingle.staticBlocks.length ∧
    (gDouble.clearLines.1 = 2 ∧
      gDouble.clearLines.2.staticBlocks = [((3, 7) : Cell), (0, 29)]) := by
  have hnodup : gSingle.staticBlocks.Nodup := by decide
  refine ⟨⟨gSingle_bottom_full, hnodup⟩, ?_⟩
  exact clearLines_spec gSingle 29 (by decide) (by decide) hnodup (by decide)
    gSingle_bottom_full gSingle_no_other_full

/-- Claim C5 counterexample: the src/js/Game.js controller's
lock-and-respawn at the 50th locked block sets level 2, where the claimed
`1 + ⌊landedBlocks / 80⌋` formula would give level 1. -/
theorem level_threshold_counterexample :
    (Game.handleCollision stLevel (fun _ => (0 : ℚ)) 0).1.grid.landedBlocks = 50 ∧
    (Game.handleCollision stLevel (fun _ => (0 : ℚ)) 0).1.level = 2 ∧
    (2 : ℕ) ≠ 1 + 50 / 80 := by
  refine ⟨by with_unfolding_all rfl, by with_unfolding_all rfl, by decide⟩
